import Mathlib

/-!
# Verification of the dbbench configuration and orchestration layer

Shallow embedding of the config-parsing code (`config.go`, given as
`src/unnamed/part_000`) and the orchestrator (`src/dbbench.go`).

Modelling conventions:
* `time.Duration` values are embedded as `Int` (nanoseconds).  Both config
  paths obtain them through the same Go stdlib call `time.ParseDuration`
  (which accepts negative durations such as `"-5s"`), so fields hold the
  already-parsed signed value; a string that fails to parse aborts either
  path at the same point and is not modelled further.
* `float64` rate values are embedded as `GoFloat`: finite values as exact
  rationals, NaN (which `strconv.ParseFloat` accepts, e.g. for `"NaN"`) as
  a distinct value whose comparisons with zero are all false, matching Go
  float comparison semantics.  The config layer only compares rates with
  zero and copies them, and under those observations `±Inf` behaves like
  any other nonzero value of the same sign, so `num` subsumes infinities.
* `uint64` values are embedded as `Nat` (`strconv.ParseUint` rejects
  negatives).
* The filesystem is a map `FS : String → Option String` from path to file
  contents; `os.Open` succeeds exactly on paths in the map.
* Go maps (`config.Jobs`, the section lists) are embedded as association
  lists; map iteration order in Go is unspecified, the list fixes one
  order, which none of the proved properties depend on.
-/

/-- Modelled from the spec: `DatabaseFlavor.CheckQuery` (flavors file not in
`src/`) classifies a query as ok, empty (only whitespace/comments), or bad
with a message (`BadQuery`). -/
inductive QueryCheckResult where
  | ok : QueryCheckResult
  | emptyQuery : QueryCheckResult
  | badQuery (msg : String) : QueryCheckResult
deriving DecidableEq, Repr

/-- Modelled from the spec: the `DatabaseFlavor` interface, restricted to
the two methods the config layer uses (`QuerySeparator`, `CheckQuery`). -/
structure DatabaseFlavor where
  querySeparator : String
  checkQuery : String → QueryCheckResult

/-- Modelled from the spec: the message of the sentinel `EmptyQueryError`
value returned by `CheckQuery` for whitespace/comment-only queries (the
flavors file is not in `src/`). -/
def EmptyQueryErrorMsg : String := "empty query"

/-- The error string carried to goini when an option `Parse` callback
returns the `CheckQuery` error (`if e := jp.df.CheckQuery(v); e != nil`:
any non-nil result, `EmptyQueryError` included, aborts the decode). -/
def qcErrString : QueryCheckResult → Option String
  | .ok => none
  | .emptyQuery => some EmptyQueryErrorMsg
  | .badQuery m => some m

/-- The filesystem: path → contents for openable files. -/
abbrev FS : Type := String → Option String

/-- `filepath.IsAbs` on Unix: the path begins with a slash. -/
def goIsAbs (p : String) : Bool :=
  match p.data with
  | '/' :: _ => true
  | _ => false

/-- `filepath.Join(basedir, p)` restricted to the uses in the source (no
path cleaning modelled; witnesses use absolute paths). -/
def joinPath (basedir p : String) : String :=
  if basedir = "" then p else basedir ++ "/" ++ p

/-- The `if !filepath.IsAbs(v) { v = filepath.Join(basedir, v) }` pattern
that precedes every file open in both config paths. -/
def resolvePath (basedir p : String) : String :=
  if goIsAbs p then p else joinPath basedir p

/-- `csv.Reader` as configured by the source: the source it reads from and
the `Comma` field (default `','`, overwritten when a delimiter was set). -/
structure CSVReader where
  source : String
  comma : Char := ','
deriving DecidableEq, Repr

/-- A `float64` as observed by the config layer: a finite value as an
exact rational, or NaN.  The source only ever compares a rate with zero
(`rate < 0`, `rate == 0`, `rate > 0`) and copies it; every comparison
involving NaN is false in Go.  `±Inf` answers those three comparisons
exactly like an ordinary value of its sign, so it needs no constructor of
its own. -/
inductive GoFloat where
  | num (q : Rat) : GoFloat
  | nan : GoFloat
deriving DecidableEq, Repr

/-- Go `r < 0` on a float64. -/
def GoFloat.isNeg : GoFloat → Bool
  | .num q => decide (q < 0)
  | .nan => false

/-- Go `r == 0` on a float64. -/
def GoFloat.isZero : GoFloat → Bool
  | .num q => decide (q = 0)
  | .nan => false

/-- Go `r > 0` on a float64. -/
def GoFloat.isPos : GoFloat → Bool
  | .num q => decide (0 < q)
  | .nan => false

/-- The `Job` struct (fields used by the config layer; `Name` through
`Count`).  `QueryLog`/`QueryArgs`/`QueryResults` hold the resolved path of
the successfully opened file. -/
structure Job where
  Name : String := ""
  Start : Int := 0
  Stop : Int := 0
  Queries : List String := []
  QueryLog : Option String := none
  QueryArgs : Option CSVReader := none
  QueryResults : Option String := none
  Rate : GoFloat := .num 0
  BatchSize : Nat := 0
  QueueDepth : Nat := 0
  Count : Nat := 0
deriving DecidableEq, Repr

/-- The `Config` struct (`Flavor` omitted: it is only carried, never
inspected, after parsing). -/
structure Config where
  Duration : Int := 0
  Setup : List String := []
  Teardown : List String := []
  Jobs : List (String × Job) := []
  AcceptedErrors : List String := []
deriving DecidableEq, Repr

/-! ## readQueriesFromReader -/

/-- Whether `CheckQuery` keeps a segment (returned `nil` in Go). -/
def keepsQuery : QueryCheckResult → Bool
  | .ok => true
  | _ => false

/-- Whether a `CheckQuery` result is a hard error (non-nil and not
`EmptyQueryError`). -/
def isBadQuery : QueryCheckResult → Bool
  | .badQuery _ => true
  | _ => false

/-- Helper for `goSplit`: scan the characters, emitting a segment at each
non-overlapping occurrence of the separator.  The fuel argument (set to
the string length, enough for one step per consumed character) only makes
the recursion structural. -/
def goSplitAux (sep : List Char) : Nat → List Char → List Char → List (List Char)
  | _, [], acc => [acc.reverse]
  | 0, s, acc => [acc.reverse ++ s]
  | fuel + 1, c :: rest, acc =>
    if sep.isPrefixOf (c :: rest) then
      acc.reverse :: goSplitAux sep fuel (List.drop sep.length (c :: rest)) []
    else
      goSplitAux sep fuel rest (c :: acc)

/-- Go `strings.Split(s, sep)` for a non-empty separator: split around
every non-overlapping instance of `sep`, scanning left to right.  (For an
empty separator Go explodes the string into runes; no flavor has an empty
query separator, so that case is collapsed to `[s]`.) -/
def goSplit (s sep : String) : List String :=
  if sep.data = [] then [s]
  else (goSplitAux sep.data s.data.length s.data []).map String.mk

/-- The loop body of `readQueriesFromReader`: for each segment, a hard
`CheckQuery` error aborts with `"invalid query <err>"`, `EmptyQueryError`
drops the segment, `nil` keeps it (in order). -/
def readQueriesLoop (df : DatabaseFlavor) : List String → Except String (List String)
  | [] => .ok []
  | q :: rest =>
    match df.checkQuery q with
    | .badQuery m => .error ("invalid query " ++ m)
    | .emptyQuery => readQueriesLoop df rest
    | .ok =>
      match readQueriesLoop df rest with
      | .error e => .error e
      | .ok qs => .ok (q :: qs)

/-- `readQueriesFromReader`: split the contents on the flavor's query
separator (`strings.Split`) and filter/validate each segment. -/
def readQueriesFromReader (df : DatabaseFlavor) (contents : String) :
    Except String (List String) :=
  readQueriesLoop df (goSplit contents df.querySeparator)

/-- `readQueriesFromFile` (`os.Open` then `readQueriesFromReader`). -/
def readQueriesFromFile (df : DatabaseFlavor) (fs : FS) (queryFile : String) :
    Except String (List String) :=
  match fs queryFile with
  | none => .error ("open " ++ queryFile ++ ": no such file or directory")
  | some contents => readQueriesFromReader df contents

/-! ## Shared option-processing helpers

Both the INI decoder and the JSON validator contain, line for line, the
same loops over direct queries (`CheckQuery` each, append) and over query
files (resolve, open, `readQueriesFromFile`, append); they are factored
here and used by both embeddings. -/

/-- The repeated `query` option / the `Queries` field loop: check each
query, abort on any non-nil `CheckQuery` result, append in order. -/
def appendCheckedQueries (df : DatabaseFlavor) (acc : List String) :
    List String → Except String (List String)
  | [] => .ok acc
  | q :: rest =>
    match qcErrString (df.checkQuery q) with
    | some e => .error e
    | none => appendCheckedQueries df (acc ++ [q]) rest

/-- The repeated `query-file` option / the `QueryFiles` field loop. -/
def appendFileQueries (df : DatabaseFlavor) (fs : FS) (basedir : String)
    (acc : List String) : List String → Except String (List String)
  | [] => .ok acc
  | f :: rest =>
    match readQueriesFromFile df fs (resolvePath basedir f) with
    | .error e => .error e
    | .ok qs => appendFileQueries df fs basedir (acc ++ qs) rest

/-- `os.Open` of an optional, basedir-resolved path (used for
`query-args-file` and `query-log-file`); returns the resolved path. -/
def openFileOpt (fs : FS) (basedir : String) : Option String → Except String (Option String)
  | none => .ok none
  | some f =>
    let path := resolvePath basedir f
    match fs path with
    | none => .error ("open " ++ path ++ ": no such file or directory")
    | some _ => .ok (some path)

/-! ## INI job sections -/

/-- The values of a job section's keys after goini key/number/duration
lexing: `none` when the key is absent.  `queries`/`queryFiles` collect the
repeatable keys in file order.  `queryArgsDelim` and `multiQueryMode` keep
the raw string value (their `Parse` callbacks inspect it). -/
structure IniJobSection where
  start : Option Int := none
  stop : Option Int := none
  queries : List String := []
  queryFiles : List String := []
  queryArgsFile : Option String := none
  queryArgsDelim : Option String := none
  queryResultsFile : Option String := none
  rate : Option GoFloat := none
  batchSize : Option Nat := none
  queueDepth : Option Nat := none
  concurrency : Option Nat := none
  count : Option Nat := none
  multiQueryMode : Option String := none
  queryLogFile : Option String := none

/-- The backquote character (U+0060). -/
def backquoteChar : Char := Char.ofNat 96

/-- A hexadecimal digit's value. -/
def hexDigit (c : Char) : Option Nat :=
  if '0' ≤ c ∧ c ≤ '9' then some (c.toNat - 48)
  else if 'a' ≤ c ∧ c ≤ 'f' then some (c.toNat - 87)
  else if 'A' ≤ c ∧ c ≤ 'F' then some (c.toNat - 55)
  else none

/-- An octal digit's value. -/
def octDigit (c : Char) : Option Nat :=
  if '0' ≤ c ∧ c ≤ '7' then some (c.toNat - 48) else none

/-- Read exactly `n` hexadecimal digits. -/
def readHex : Nat → Nat → List Char → Option (Nat × List Char)
  | 0, acc, rest => some (acc, rest)
  | _ + 1, _, [] => none
  | n + 1, acc, c :: rest =>
    match hexDigit c with
    | none => none
    | some d => readHex n (acc * 16 + d) rest

/-- `utf8.ValidRune`: a Unicode scalar value (no surrogates, `≤ U+10FFFF`). -/
def validRune (v : Nat) : Bool :=
  decide (v < 0xD800) || (decide (0xDFFF < v) && decide (v ≤ 0x10FFFF))

/-- `strconv.UnquoteChar` on an escape sequence (the characters after the
backslash), in the context of the given quote character: `\'` is only
legal inside a rune literal and `\"` only inside a string literal; `\x`
and octal escapes contribute one raw byte, `\u`/`\U` a UTF-8-encoded
rune, everything else its ASCII control byte. -/
def parseEscape (quote : Char) : List Char → Option (List UInt8 × List Char)
  | [] => none
  | c :: rest =>
    if c = 'a' then some ([7], rest)
    else if c = 'b' then some ([8], rest)
    else if c = 'f' then some ([12], rest)
    else if c = 'n' then some ([10], rest)
    else if c = 'r' then some ([13], rest)
    else if c = 't' then some ([9], rest)
    else if c = 'v' then some ([11], rest)
    else if c = '\\' then some ([92], rest)
    else if c = '\'' then (if quote = '\'' then some ([39], rest) else none)
    else if c = '"' then (if quote = '"' then some ([34], rest) else none)
    else if c = 'x' then
      match readHex 2 0 rest with
      | none => none
      | some (v, rest2) => some ([UInt8.ofNat v], rest2)
    else if c = 'u' then
      match readHex 4 0 rest with
      | none => none
      | some (v, rest2) =>
        if validRune v then some (String.utf8EncodeChar (Char.ofNat v), rest2)
        else none
    else if c = 'U' then
      match readHex 8 0 rest with
      | none => none
      | some (v, rest2) =>
        if validRune v then some (String.utf8EncodeChar (Char.ofNat v), rest2)
        else none
    else
      match octDigit c, rest with
      | some d1, c2 :: c3 :: rest2 =>
        match octDigit c2, octDigit c3 with
        | some d2, some d3 =>
          let v := d1 * 64 + d2 * 8 + d3
          if v ≤ 255 then some ([UInt8.ofNat v], rest2) else none
        | _, _ => none
      | _, _ => none

/-- One `strconv.UnquoteChar` step: an escape sequence after a backslash,
or a plain character (contributing its UTF-8 bytes). -/
def parseOneChar (quote : Char) : List Char → Option (List UInt8 × List Char)
  | [] => none
  | c :: rest =>
    if c = '\\' then parseEscape quote rest
    else if c = quote ∨ c = '\n' then none
    else some (String.utf8EncodeChar c, rest)

/-- The character loop of Go `strconv.unquote` for `"`- and `\'`-quoted
literals (the characters after the opening quote): characters and escapes
accumulate until the quote character, which must close the whole input;
an unescaped newline is an error, and a rune literal holds at most one
character.  The fuel (set to the input length, one unit per consumed
leading character) only makes the recursion structural; it cannot run
out before the character list does. -/
def unquoteLoop (quote : Char) : Nat → List Char → Option (List UInt8)
  | _, [] => none
  | 0, _ :: _ => none
  | fuel + 1, c :: rest =>
    if c = quote then (if rest.isEmpty then some [] else none)
    else
      match parseOneChar quote (c :: rest) with
      | none => none
      | some (bytes, rest2) =>
        if quote = '\'' then
          if rest2 = [quote] then some bytes else none
        else
          (unquoteLoop quote fuel rest2).map (fun bs => bytes ++ bs)

/-- Model of Go `strconv.Unquote`, producing the unquoted value as the
byte string Go produces (`\x`/octal escapes may contribute raw non-UTF-8
bytes, so the result is a byte list): a backquoted literal (no inner
backquote; carriage returns stripped), or a double-quoted string literal,
or a rune literal, each spanning the entire input; everything else —
including a value with no surrounding quotes — is `ErrSyntax`. -/
def goUnquote (v : String) : Option (List UInt8) :=
  match v.data with
  | [] => none
  | [_] => none
  | q :: rest =>
    if q = backquoteChar then
      match rest.getLast? with
      | none => none
      | some l =>
        if l = backquoteChar ∧ rest.dropLast.all (fun c => c ≠ backquoteChar) then
          some (((rest.dropLast.filter (fun c => c ≠ '\r')).map
            String.utf8EncodeChar).flatten)
        else none
    else if q = '"' ∨ q = '\'' then
      unquoteLoop q rest.length rest
    else none

/-- `strconv.Quote` restricted to strings needing no escaping (only used
inside error messages here). -/
def goQuote (s : String) : String := "\"" ++ s ++ "\""

/-- `utf8.DecodeRuneInString` on a one-byte string: an ASCII byte decodes
to itself, any other single byte is an incomplete encoding and decodes to
`utf8.RuneError` (U+FFFD). -/
def decodeSingleByte (b : UInt8) : Char :=
  if b.toNat < 128 then Char.ofNat b.toNat else '\uFFFD'

/-- The `query-args-delim` option's `Parse`: `strconv.Unquote` the value,
then require the unquoted result to be exactly one **byte** long
(`len(s) != 1` counts bytes), then take its first rune
(`utf8.DecodeRuneInString`).  The resulting rune is stored in
`jp.queryArgsDelim`, whose every later use guards with `!= 0`, so a NUL
delimiter (rune 0) is observationally unset and modelled as `none`. -/
def iniParseDelim : Option String → Except String (Option Char)
  | none => .ok none
  | some v =>
    match goUnquote v with
    | none => .error "invalid syntax"
    | some t =>
      if t.length ≠ 1 then .error "Must provide exactly one character for delimiter"
      else
        let c := decodeSingleByte (t.headD 0)
        .ok (if c.toNat = 0 then none else some c)

/-- The `rate` option's `Parse`: reject a negative parsed value; an absent
key leaves the zero value. -/
def iniParseRate : Option GoFloat → Except String GoFloat
  | none => .ok (.num 0)
  | some r =>
    if r.isNeg = true then .error "invalid negative value for rate" else .ok r

/-- The `multi-query-mode` option's `Parse`: only the value
`"multi-connection"` is accepted. -/
def iniParseMulti : Option String → Except String Bool
  | none => .ok false
  | some v =>
    if v = "multi-connection" then .ok true
    else .error ("invalid value for multi-query-mode: " ++ goQuote v)

/-- The `jobParser` state carried through a job section's decode: the Job
under construction plus the parser-local fields (`queryArgsFile`,
`queryArgsDelim`, `multiQueryAllowed`). -/
structure JobParseState where
  job : Job
  queryArgsFile : Option String := none
  queryArgsDelim : Option Char := none
  multiQueryAllowed : Bool := false
deriving DecidableEq, Repr

/-- The field-processing phase of `decodeJobSection`: run every present
option's `Parse` callback, abort at the first error.  goini applies the
options in the order the keys appear in the file; the model fixes the
order of error sites to the textual order of `validateJobSection`'s field
blocks (start, stop, queries, query files, args file, delimiter, results
file, rate, sizes, multi-query-mode, query log) — the proved properties
never depend on which of several bad fields is reported first. -/
def decodeJobFields (df : DatabaseFlavor) (fs : FS) (basedir name : String)
    (s : IniJobSection) : Except String JobParseState :=
  match appendCheckedQueries df [] s.queries with
  | .error e => .error e
  | .ok qs =>
    match appendFileQueries df fs basedir qs s.queryFiles with
    | .error e => .error e
    | .ok queries =>
      match openFileOpt fs basedir s.queryArgsFile with
      | .error e => .error e
      | .ok argsFile =>
        match iniParseDelim s.queryArgsDelim with
        | .error e => .error e
        | .ok delim =>
          match iniParseRate s.rate with
          | .error e => .error e
          | .ok rate =>
            match iniParseMulti s.multiQueryMode with
            | .error e => .error e
            | .ok multi =>
              match openFileOpt fs basedir s.queryLogFile with
              | .error e => .error e
              | .ok queryLog =>
                .ok {
                  job := {
                    Name := name
                    Start := s.start.getD 0
                    Stop := s.stop.getD 0
                    Queries := queries
                    QueryLog := queryLog
                    -- NewSafeCSVWriter (os.Create) modelled as succeeding
                    QueryResults := s.queryResultsFile.map (resolvePath basedir)
                    Rate := rate
                    BatchSize := s.batchSize.getD 0
                    -- queue-depth is applied, then concurrency (an alias
                    -- for the same Job field) overwrites it when present
                    QueueDepth := s.concurrency.getD (s.queueDepth.getD 0)
                    Count := s.count.getD 0 }
                  queryArgsFile := argsFile
                  queryArgsDelim := delim
                  multiQueryAllowed := multi }

/-- `differentJobTypes` as computed by both `decodeJobSection` and
`validateJobSection`. -/
def jobTypeCount (job : Job) : Nat :=
  (if 0 < job.QueueDepth then 1 else 0) +
    (if job.QueryLog ≠ none then 1 else 0) +
      (if job.Rate.isPos = true then 1 else 0)

/-- The tail shared verbatim by `decodeJobSection` and
`validateJobSection` once every invariant check has passed: default the
queue depth to 1 when no job type was chosen, default the batch size to 1
for a rate job, and wire `csv.NewReader` over the args file (overriding
its `Comma` when a delimiter was given). -/
def finishJob (st : JobParseState) : Job :=
  -- The default job type is 1 thread.
  let job := if jobTypeCount st.job = 0 then { st.job with QueueDepth := 1 } else st.job
  let job := if job.Rate.isPos = true ∧ job.BatchSize = 0 then { job with BatchSize := 1 }
    else job
  match st.queryArgsFile with
  | some f => { job with QueryArgs := some { source := f, comma := st.queryArgsDelim.getD ',' } }
  | none => job

/-- The invariant checks and defaulting at the end of `decodeJobSection`
(lines after `jobOptions.Decode` returns): the error chain, the
`differentJobTypes` count with the queue-depth default, the batch-size
default, and the `csv.NewReader` wiring. -/
def checksIni (st : JobParseState) : Except String Job :=
  let job := st.job
  if job.Queries.length = 0 ∧ job.QueryLog = none then
    .error "no query provided"
  else if 0 < job.Queries.length ∧ job.QueryLog ≠ none then
    .error "cannot have both queries and a query log"
  else if 1 < job.Queries.length ∧ st.multiQueryAllowed = false then
    .error "must have only one query"
  else if job.Rate.isZero = true ∧ 0 < job.BatchSize then
    .error "can only specify batch-size with rate"
  else if st.queryArgsDelim ≠ none ∧ st.queryArgsFile = none then
    .error "Cannot set query-args-delim with no query-args-file"
  else if st.queryArgsFile ≠ none ∧ job.QueryLog ≠ none then
    .error "Cannot use query-args-file with query-log-file"
  else if 1 < jobTypeCount job then
    .error "Can only specify one of rate, queue-depth, or query-log-file"
  else
    .ok (finishJob st)

/-- `decodeJobSection`: goini decode phase, then the invariant checks. -/
def decodeJobSection (df : DatabaseFlavor) (fs : FS) (basedir name : String)
    (s : IniJobSection) : Except String Job :=
  match decodeJobFields df fs basedir name s with
  | .error e => .error e
  | .ok st => checksIni st

/-! ## JSON job options -/

/-- The `JobOptions` JSON struct.  `isFieldSet` (a helper of this
repository that is not under `src/`) is, per the `omitempty` contract of
§6 of the design, modelled as a zero-value test via `reflect`: string
fields are set when non-empty, numeric fields when non-zero, the bool when
true.  `Start`/`Stop` hold the already-parsed duration of a non-empty
string field (`none` for the empty string). -/
structure JobOptions where
  Start : Option Int := none
  Stop : Option Int := none
  Queries : List String := []
  QueryFiles : List String := []
  QueryArgsFile : String := ""
  QueryArgsDelim : String := ""
  QueryResultsFile : String := ""
  Rate : GoFloat := .num 0
  BatchSize : Nat := 0
  QueueDepth : Nat := 0
  Concurrency : Nat := 0
  Count : Nat := 0
  MultiQueryMode : Bool := false
  QueryLogFile : String := ""

/-- The `QueryArgsDelim` field block of `validateJobSection`: when set,
require the raw value to be exactly one **byte** (`len(queryArgsDelim)`
counts bytes), then take its first rune. -/
def jsonParseDelim (v : String) : Except String (Option Char) :=
  if v = "" then .ok none
  else if v.utf8ByteSize ≠ 1 then .error "Must provide exactly one character for delimiter"
  else .ok (if v.front.toNat = 0 then none else some v.front)

/-- The `Rate` field block of `validateJobSection`: when set (non-zero),
reject a negative value, else copy it. -/
def jsonParseRate (r : GoFloat) : Except String GoFloat :=
  if r ≠ .num 0 then
    if r.isNeg = true then .error "invalid negative value for rate" else .ok r
  else .ok (.num 0)

/-- Turn an empty string field into an absent optional path. -/
def strOpt (v : String) : Option String := if v = "" then none else some v

/-- The field-processing phase of `validateJobSection` (the sequence of
`isFieldSet` blocks, in source order). -/
def validateJobFields (df : DatabaseFlavor) (fs : FS) (basedir name : String)
    (o : JobOptions) : Except String JobParseState :=
  match appendCheckedQueries df [] o.Queries with
  | .error e => .error e
  | .ok qs =>
    match appendFileQueries df fs basedir qs o.QueryFiles with
    | .error e => .error e
    | .ok queries =>
      match openFileOpt fs basedir (strOpt o.QueryArgsFile) with
      | .error e => .error e
      | .ok argsFile =>
        match jsonParseDelim o.QueryArgsDelim with
        | .error e => .error e
        | .ok delim =>
          match jsonParseRate o.Rate with
          | .error e => .error e
          | .ok rate =>
            match openFileOpt fs basedir (strOpt o.QueryLogFile) with
            | .error e => .error e
            | .ok queryLog =>
              .ok {
                job := {
                  Name := name
                  Start := o.Start.getD 0
                  Stop := o.Stop.getD 0
                  Queries := queries
                  QueryLog := queryLog
                  -- NewSafeCSVWriter (os.Create) modelled as succeeding
                  QueryResults := (strOpt o.QueryResultsFile).map (resolvePath basedir)
                  Rate := rate
                  BatchSize := o.BatchSize
                  -- QueueDepth is assigned, then Concurrency (when set)
                  -- unconditionally overwrites it
                  QueueDepth := if o.Concurrency ≠ 0 then o.Concurrency else o.QueueDepth
                  Count := o.Count }
                queryArgsFile := argsFile
                queryArgsDelim := delim
                multiQueryAllowed := o.MultiQueryMode }

/-- The invariant checks and defaulting at the end of `validateJobSection`
(same logic as `checksIni`; the message strings use the JSON key names). -/
def checksJson (st : JobParseState) : Except String Job :=
  let job := st.job
  if job.Queries.length = 0 ∧ job.QueryLog = none then
    .error "no query provided"
  else if 0 < job.Queries.length ∧ job.QueryLog ≠ none then
    .error "cannot have both queries and a queryLog"
  else if 1 < job.Queries.length ∧ st.multiQueryAllowed = false then
    .error "must have only one query"
  else if job.Rate.isZero = true ∧ 0 < job.BatchSize then
    .error "can only specify batchSize with rate"
  else if st.queryArgsDelim ≠ none ∧ st.queryArgsFile = none then
    .error "Cannot set queryArgsDelim with no queryArgsFile"
  else if st.queryArgsFile ≠ none ∧ job.QueryLog ≠ none then
    .error "Cannot use queryArgsFile with queryLogFile"
  else if 1 < jobTypeCount job then
    .error "Can only specify one of rate, queue-depth, or query-log-file"
  else
    .ok (finishJob st)

/-- `validateJobSection`: field phase, then the invariant checks. -/
def validateJobSection (df : DatabaseFlavor) (fs : FS) (basedir name : String)
    (o : JobOptions) : Except String Job :=
  match validateJobFields df fs basedir name o with
  | .error e => .error e
  | .ok st => checksJson st

/-! ## Whole-config parsing -/

/-- An INI `[setup]`/`[teardown]` section and the JSON
`setup`/`teardown` objects: repeatable `query` / `query-file` keys,
`queries[]` / `queryFiles[]` fields. -/
structure SetupSection where
  queries : List String := []
  queryFiles : List String := []

/-- `decodeSetupSection` and `validateReservedSection`: check and collect
direct queries, then file queries (both sources run the same two loops). -/
def decodeSetupSection (df : DatabaseFlavor) (fs : FS) (basedir : String)
    (s : SetupSection) : Except String (List String) :=
  match appendCheckedQueries df [] s.queries with
  | .error e => .error e
  | .ok qs => appendFileQueries df fs basedir qs s.queryFiles

/-- Reserved section names never parsed as jobs. -/
def reservedName (n : String) : Bool :=
  n == "setup" || n == "teardown" || n == "global"

/-- `decodeConfigJobs`: decode every non-reserved section as a job,
wrapping errors with the job name. -/
def decodeConfigJobs (df : DatabaseFlavor) (fs : FS) (basedir : String) :
    List (String × IniJobSection) → Except String (List (String × Job))
  | [] => .ok []
  | (name, s) :: rest =>
    if reservedName name then decodeConfigJobs df fs basedir rest
    else
      match decodeJobSection df fs basedir name s with
      | .error e => .error ("Error parsing job " ++ goQuote name ++ ": " ++ e)
      | .ok job =>
        match decodeConfigJobs df fs basedir rest with
        | .error e => .error e
        | .ok js => .ok ((name, job) :: js)

/-- `validateConfigJobs`: the JSON twin of `decodeConfigJobs`. -/
def validateConfigJobs (df : DatabaseFlavor) (fs : FS) (basedir : String) :
    List (String × JobOptions) → Except String (List (String × Job))
  | [] => .ok []
  | (name, o) :: rest =>
    if reservedName name then validateConfigJobs df fs basedir rest
    else
      match validateJobSection df fs basedir name o with
      | .error e => .error ("Error parsing job " ++ goQuote name ++ ": " ++ e)
      | .ok job =>
        match validateConfigJobs df fs basedir rest with
        | .error e => .error e
        | .ok js => .ok ((name, job) :: js)

/-- The final loop shared by `parseIniConfig` and `parseJSONConfig`: with
a positive test duration, reject a job starting after the test finishes,
else a job with positive stop stopping after the test finishes. -/
def checkJobTimes (duration : Int) : List (String × Job) → Option String
  | [] => none
  | (name, job) :: rest =>
    if 0 < duration ∧ duration < job.Start then
      some ("job " ++ goQuote name ++ " starts after test finishes.")
    else if 0 < job.Stop ∧ 0 < duration ∧ duration < job.Stop then
      some ("job " ++ goQuote name ++ " stops after test finishes.")
    else checkJobTimes duration rest

/-- The data of an INI run-file after goini raw parsing: the `[global]`
section's parsed duration and accepted errors, the two reserved sections,
and the job sections in file order. -/
structure IniConfigInput where
  duration : Option Int := none
  errors : List String := []
  setupSection : SetupSection := {}
  teardownSection : SetupSection := {}
  jobSections : List (String × IniJobSection) := []

/-- `parseIniConfig`: global, setup, teardown, jobs, then the
start/stop-vs-duration checks. -/
def parseIniConfig (df : DatabaseFlavor) (fs : FS) (basedir : String)
    (c : IniConfigInput) : Except String Config :=
  match decodeSetupSection df fs basedir c.setupSection with
  | .error e => .error ("Error parsing setup section: " ++ e)
  | .ok setup =>
    match decodeSetupSection df fs basedir c.teardownSection with
    | .error e => .error ("Error parsing teardown section: " ++ e)
    | .ok teardown =>
      match decodeConfigJobs df fs basedir c.jobSections with
      | .error e => .error e
      | .ok jobs =>
        let config : Config := {
          Duration := c.duration.getD 0
          Setup := setup
          Teardown := teardown
          Jobs := jobs
          AcceptedErrors := c.errors }
        match checkJobTimes config.Duration config.Jobs with
        | some e => .error e
        | none => .ok config

/-- The `JSONConfig` struct after `json.Unmarshal`, durations parsed. -/
structure JSONConfigInput where
  duration : Option Int := none
  errors : List String := []
  setup : SetupSection := {}
  teardown : SetupSection := {}
  jobs : List (String × JobOptions) := []

/-- `parseJSONConfig`: global, setup, teardown, jobs, then the same
start/stop-vs-duration checks as `parseIniConfig`. -/
def parseJSONConfig (df : DatabaseFlavor) (fs : FS) (basedir : String)
    (c : JSONConfigInput) : Except String Config :=
  match decodeSetupSection df fs basedir c.setup with
  | .error e => .error ("Error parsing setup section: " ++ e)
  | .ok setup =>
    match decodeSetupSection df fs basedir c.teardown with
    | .error e => .error ("Error parsing teardown section: " ++ e)
    | .ok teardown =>
      match validateConfigJobs df fs basedir c.jobs with
      | .error e => .error e
      | .ok jobs =>
        let config : Config := {
          Duration := c.duration.getD 0
          Setup := setup
          Teardown := teardown
          Jobs := jobs
          AcceptedErrors := c.errors }
        match checkJobTimes config.Duration config.Jobs with
        | some e => .error e
        | none => .ok config

/-! ## The orchestrator (`runTest`, `src/dbbench.go`) -/

/-- How `runTest` terminates: normal return, or a `log.Fatalf` (process
abort) at the first failing setup or teardown query. -/
inductive RunOutcome where
  | completed : RunOutcome
  | setupFatal (query err : String) : RunOutcome
  | teardownFatal (query err : String) : RunOutcome
deriving DecidableEq, Repr

/-- The externally visible effects of one `runTest` call. -/
structure RunTrace where
  setupExecuted : List String
  jobsRun : Bool
  statsEmitted : Bool
  teardownExecuted : List String
  outcome : RunOutcome
deriving DecidableEq, Repr

/-- A database handle for the config layer: a query either succeeds
(`none`) or returns an error string. -/
abbrev Db : Type := String → Option String

/-- Run queries serially on one connection, stopping at the first error
(`log.Fatalf`): returns the executed prefix (failing query included) and
the first failure, if any. -/
def runQueriesFatal (db : Db) : List String → List String × Option (String × String)
  | [] => ([], none)
  | q :: rest =>
    match db q with
    | some e => ([q], some (q, e))
    | none =>
      let (ex, r) := runQueriesFatal db rest
      (q :: ex, r)

/-- The first failing query of a list, with its error. -/
def firstQueryError (db : Db) (qs : List String) : Option (String × String) :=
  (runQueriesFatal db qs).2

/-- `runTest`: run the setup queries, aborting the process at the first
error (jobs, statistics and teardown all skipped); otherwise run the jobs
and emit statistics (the driver phase — `makeJobResultChan` and
`processResults`, not under `src/` — always completes, per §4.F of the
spec); then run the teardown queries, aborting the process at the first
error. -/
def runTest (db : Db) (config : Config) : RunTrace :=
  let (sx, serr) := runQueriesFatal db config.Setup
  match serr with
  | some (q, e) =>
    { setupExecuted := sx, jobsRun := false, statsEmitted := false
      teardownExecuted := [], outcome := .setupFatal q e }
  | none =>
    let (tx, terr) := runQueriesFatal db config.Teardown
    match terr with
    | some (q, e) =>
      { setupExecuted := sx, jobsRun := true, statsEmitted := true
        teardownExecuted := tx, outcome := .teardownFatal q e }
    | none =>
      { setupExecuted := sx, jobsRun := true, statsEmitted := true
        teardownExecuted := tx, outcome := .completed }

/-! ## Test fixtures (used by witnesses and counterexamples) -/

/-- A concrete flavor for witnesses: empty string is an empty query,
`BEGIN` is a connection-altering statement, everything else is fine. -/
def testFlavor : DatabaseFlavor where
  querySeparator := ";"
  checkQuery := fun q =>
    if q = "" then .emptyQuery
    else if q = "BEGIN" then .badQuery "connection-altering statement"
    else .ok

/-- An empty filesystem. -/
def emptyFs : FS := fun _ => none

/-- A filesystem holding one CSV args file. -/
def argsFs : FS := fun p => if p = "/args.csv" then some "1,2" else none

/-- Whether an `Except` is a success. -/
def isOkE {α : Type} : Except String α → Bool
  | .ok _ => true
  | .error _ => false

instance exceptDecEq {ε α : Type} [DecidableEq ε] [DecidableEq α] :
    DecidableEq (Except ε α)
  | .error e, .error f =>
    if h : e = f then .isTrue (by rw [h]) else .isFalse (by simp [h])
  | .error _, .ok _ => .isFalse (by simp)
  | .ok _, .error _ => .isFalse (by simp)
  | .ok a, .ok b =>
    if h : a = b then .isTrue (by rw [h]) else .isFalse (by simp [h])

/-- How many of the three job modes an INI job section specifies: a
positive queue depth (via either the `queue-depth` or the `concurrency`
key, the latter winning when both are present), a `query-log-file`, and a
positive `rate`. -/
def iniModesSpecified (s : IniJobSection) : Nat :=
  (if 0 < s.concurrency.getD (s.queueDepth.getD 0) then 1 else 0) +
    (if s.queryLogFile ≠ none then 1 else 0) +
      (if (s.rate.getD (.num 0)).isPos = true then 1 else 0)

/-- How many of the three job modes a JSON job spec specifies. -/
def jsonModesSpecified (o : JobOptions) : Nat :=
  (if 0 < (if o.Concurrency ≠ 0 then o.Concurrency else o.QueueDepth) then 1 else 0) +
    (if o.QueryLogFile ≠ "" then 1 else 0) +
      (if o.Rate.isPos = true then 1 else 0)

/-- The JSON job spec carrying the same field values as an INI job
section: list fields as given, absent optional fields as the zero value,
`concurrency`/`queue-depth` to their respective fields, and the INI
`multi-query-mode = multi-connection` marker to the boolean. -/
def sectionToOptions (s : IniJobSection) : JobOptions where
  Start := s.start
  Stop := s.stop
  Queries := s.queries
  QueryFiles := s.queryFiles
  QueryArgsFile := s.queryArgsFile.getD ""
  QueryArgsDelim := s.queryArgsDelim.getD ""
  QueryResultsFile := s.queryResultsFile.getD ""
  Rate := s.rate.getD (.num 0)
  BatchSize := s.batchSize.getD 0
  QueueDepth := s.queueDepth.getD 0
  Concurrency := s.concurrency.getD 0
  Count := s.count.getD 0
  MultiQueryMode := s.multiQueryMode == some "multi-connection"
  QueryLogFile := s.queryLogFile.getD ""

/-! ## Lemmas about readQueriesFromReader -/

theorem readQueriesLoop_ok_of_no_bad (df : DatabaseFlavor) (l : List String)
    (h : ∀ q ∈ l, isBadQuery (df.checkQuery q) = false) :
    readQueriesLoop df l = .ok (l.filter (fun q => keepsQuery (df.checkQuery q))) := by
  induction l with
  | nil => simp [readQueriesLoop]
  | cons q rest ih =>
    have hq := h q (by simp)
    have hrest : ∀ p ∈ rest, isBadQuery (df.checkQuery p) = false :=
      fun p hp => h p (by simp [hp])
    cases hcq : df.checkQuery q with
    | badQuery m => rw [hcq] at hq; simp [isBadQuery] at hq
    | emptyQuery =>
      simp [readQueriesLoop, hcq, ih hrest, keepsQuery]
    | ok =>
      simp [readQueriesLoop, hcq, ih hrest, keepsQuery]

theorem readQueriesLoop_error_at_bad (df : DatabaseFlavor) (pre rest : List String)
    (q m : String)
    (hpre : ∀ p ∈ pre, isBadQuery (df.checkQuery p) = false)
    (hq : df.checkQuery q = .badQuery m) :
    readQueriesLoop df (pre ++ q :: rest) = .error ("invalid query " ++ m) := by
  induction pre with
  | nil => simp [readQueriesLoop, hq]
  | cons p ps ih =>
    have hp := hpre p (by simp)
    have hps : ∀ r ∈ ps, isBadQuery (df.checkQuery r) = false :=
      fun r hr => hpre r (by simp [hr])
    cases hcp : df.checkQuery p with
    | badQuery m2 => rw [hcp] at hp; simp [isBadQuery] at hp
    | emptyQuery =>
      simp only [List.cons_append, readQueriesLoop, hcp]
      exact ih hps
    | ok =>
      simp [List.cons_append, readQueriesLoop, hcp, ih hps]

/-- C8: `readQueriesFromReader` splits the contents on the flavor's query
separator; a segment on which `CheckQuery` returns `EmptyQuery` is
silently dropped, a segment on which it returns nil is kept in order, and
a segment with any other `CheckQuery` error fails the whole read with an
`"invalid query"` error and no queries returned. -/
theorem readQueriesFromReader_spec (df : DatabaseFlavor) (contents : String)
    (pre rest : List String) (q m : String) :
    ((∀ s ∈ goSplit contents df.querySeparator, isBadQuery (df.checkQuery s) = false) →
      readQueriesFromReader df contents =
        .ok ((goSplit contents df.querySeparator).filter
          (fun s => keepsQuery (df.checkQuery s)))) ∧
    (goSplit contents df.querySeparator = pre ++ q :: rest →
      (∀ s ∈ pre, isBadQuery (df.checkQuery s) = false) →
      df.checkQuery q = .badQuery m →
      readQueriesFromReader df contents = .error ("invalid query " ++ m)) := by
  constructor
  · intro h
    exact readQueriesLoop_ok_of_no_bad df _ h
  · intro hsplit hpre hq
    unfold readQueriesFromReader
    rw [hsplit]
    exact readQueriesLoop_error_at_bad df pre rest q m hpre hq

theorem readQueriesFromReader_spec_witness :
    (readQueriesFromReader testFlavor "a;;b" =
      .ok ((goSplit "a;;b" ";").filter
        (fun s => keepsQuery (testFlavor.checkQuery s)))) ∧
    readQueriesFromReader testFlavor "a;BEGIN;b" =
      .error ("invalid query " ++ "connection-altering statement") :=
  ⟨(readQueriesFromReader_spec testFlavor "a;;b" [] [] "" "").1 (by decide),
   (readQueriesFromReader_spec testFlavor "a;BEGIN;b" ["a"] ["b"]
      "BEGIN" "connection-altering statement").2 (by decide) (by decide) (by decide)⟩

/-! ## Lemmas about the field-processing phases -/


theorem iniParseRate_ok {ro : Option GoFloat} {r : GoFloat}
    (h : iniParseRate ro = .ok r) :
    r = ro.getD (.num 0) ∧ r.isNeg = false := by
  cases ro with
  | none =>
    simp only [iniParseRate] at h
    obtain rfl : GoFloat.num 0 = r := by simpa using h
    exact ⟨rfl, by decide⟩
  | some a =>
    by_cases ha : a.isNeg = true
    · simp [iniParseRate, ha] at h
    · simp only [iniParseRate, if_neg ha] at h
      obtain rfl : a = r := by simpa using h
      exact ⟨rfl, by simpa using ha⟩

theorem jsonParseRate_ok {r0 r : GoFloat} (h : jsonParseRate r0 = .ok r) :
    r = r0 ∧ r.isNeg = false := by
  by_cases h0 : r0 = .num 0
  · subst h0
    simp only [jsonParseRate, ne_eq, not_true_eq_false, if_false, ite_false] at h
    obtain rfl : GoFloat.num 0 = r := by simpa using h
    exact ⟨rfl, by decide⟩
  · by_cases ha : r0.isNeg = true
    · simp [jsonParseRate, h0, ha] at h
    · simp only [jsonParseRate, ne_eq, h0, not_false_eq_true, if_true, ite_true,
        if_neg ha] at h
      obtain rfl : r0 = r := by simpa using h
      exact ⟨rfl, by simpa using ha⟩

theorem openFileOpt_ok {fs : FS} {b : String} {po : Option String}
    {res : Option String} (h : openFileOpt fs b po = .ok res) :
    (res = none ↔ po = none) := by
  cases po with
  | none =>
    simp only [openFileOpt] at h
    obtain rfl : (none : Option String) = res := by simpa using h
    simp
  | some f =>
    simp only [openFileOpt] at h
    split at h
    · exact absurd h (by simp)
    · obtain rfl : some (resolvePath b f) = res := by simpa using h
      simp

theorem decodeJobFields_ok_spec {df : DatabaseFlavor} {fs : FS} {b n : String}
    {s : IniJobSection} {st : JobParseState}
    (h : decodeJobFields df fs b n s = .ok st) :
    st.job.Name = n ∧
    st.job.Start = s.start.getD 0 ∧
    st.job.Stop = s.stop.getD 0 ∧
    st.job.Rate = s.rate.getD (.num 0) ∧
    st.job.Rate.isNeg = false ∧
    st.job.BatchSize = s.batchSize.getD 0 ∧
    st.job.QueueDepth = s.concurrency.getD (s.queueDepth.getD 0) ∧
    st.job.Count = s.count.getD 0 ∧
    (st.job.QueryLog = none ↔ s.queryLogFile = none) := by
  unfold decodeJobFields at h
  split at h
  · exact absurd h (by simp)
  split at h
  · exact absurd h (by simp)
  split at h
  · exact absurd h (by simp)
  split at h
  · exact absurd h (by simp)
  split at h
  · exact absurd h (by simp)
  rename_i rate hrate
  split at h
  · exact absurd h (by simp)
  split at h
  · exact absurd h (by simp)
  rename_i qlog hqlog
  injection h with h2
  subst h2
  exact ⟨rfl, rfl, rfl, (iniParseRate_ok hrate).1, (iniParseRate_ok hrate).2,
    rfl, rfl, rfl, openFileOpt_ok hqlog⟩

theorem validateJobFields_ok_spec {df : DatabaseFlavor} {fs : FS} {b n : String}
    {o : JobOptions} {st : JobParseState}
    (h : validateJobFields df fs b n o = .ok st) :
    st.job.Name = n ∧
    st.job.Start = o.Start.getD 0 ∧
    st.job.Stop = o.Stop.getD 0 ∧
    st.job.Rate = o.Rate ∧
    st.job.Rate.isNeg = false ∧
    st.job.BatchSize = o.BatchSize ∧
    st.job.QueueDepth = (if o.Concurrency ≠ 0 then o.Concurrency else o.QueueDepth) ∧
    st.job.Count = o.Count ∧
    (st.job.QueryLog = none ↔ strOpt o.QueryLogFile = none) ∧
    st.multiQueryAllowed = o.MultiQueryMode := by
  unfold validateJobFields at h
  split at h
  · exact absurd h (by simp)
  split at h
  · exact absurd h (by simp)
  split at h
  · exact absurd h (by simp)
  split at h
  · exact absurd h (by simp)
  split at h
  · exact absurd h (by simp)
  rename_i rate hrate
  split at h
  · exact absurd h (by simp)
  rename_i qlog hqlog
  injection h with h2
  subst h2
  exact ⟨rfl, rfl, rfl, (jsonParseRate_ok hrate).1, (jsonParseRate_ok hrate).2,
    rfl, rfl, rfl, openFileOpt_ok hqlog, rfl⟩

theorem decodeJobFields_ne_ok_of_delim_err {df : DatabaseFlavor} {fs : FS}
    {b n : String} {s : IniJobSection} {m : String}
    (h : iniParseDelim s.queryArgsDelim = .error m) :
    ∀ st, decodeJobFields df fs b n s ≠ .ok st := by
  intro st hst
  unfold decodeJobFields at hst
  repeat' split at hst
  all_goals (first | exact Except.noConfusion hst | simp_all)

theorem decodeJobFields_ne_ok_of_rate_err {df : DatabaseFlavor} {fs : FS}
    {b n : String} {s : IniJobSection} {m : String}
    (h : iniParseRate s.rate = .error m) :
    ∀ st, decodeJobFields df fs b n s ≠ .ok st := by
  intro st hst
  unfold decodeJobFields at hst
  repeat' split at hst
  all_goals (first | exact Except.noConfusion hst | simp_all)

theorem validateJobFields_ne_ok_of_delim_err {df : DatabaseFlavor} {fs : FS}
    {b n : String} {o : JobOptions} {m : String}
    (h : jsonParseDelim o.QueryArgsDelim = .error m) :
    ∀ st, validateJobFields df fs b n o ≠ .ok st := by
  intro st hst
  unfold validateJobFields at hst
  repeat' split at hst
  all_goals (first | exact Except.noConfusion hst | simp_all)

theorem validateJobFields_ne_ok_of_rate_err {df : DatabaseFlavor} {fs : FS}
    {b n : String} {o : JobOptions} {m : String}
    (h : jsonParseRate o.Rate = .error m) :
    ∀ st, validateJobFields df fs b n o ≠ .ok st := by
  intro st hst
  unfold validateJobFields at hst
  repeat' split at hst
  all_goals (first | exact Except.noConfusion hst | simp_all)

theorem jobTypeCount_congr {a b : Job} (h1 : a.QueueDepth = b.QueueDepth)
    (h2 : a.QueryLog = b.QueryLog) (h3 : a.Rate = b.Rate) :
    jobTypeCount a = jobTypeCount b := by
  unfold jobTypeCount
  rw [h1, h2, h3]

theorem jobTypeCount_eq_zero {a : Job} (h : jobTypeCount a = 0) :
    a.QueueDepth = 0 ∧ a.QueryLog = none ∧ a.Rate.isPos = false := by
  unfold jobTypeCount at h
  split_ifs at h with hq hl hr <;> simp_all


theorem finishJob_spec (st : JobParseState) :
    (finishJob st).Name = st.job.Name ∧
    (finishJob st).Start = st.job.Start ∧
    (finishJob st).Stop = st.job.Stop ∧
    (finishJob st).Rate = st.job.Rate ∧
    (finishJob st).QueryLog = st.job.QueryLog ∧
    (finishJob st).Count = st.job.Count ∧
    (finishJob st).Queries = st.job.Queries ∧
    (finishJob st).QueueDepth = (if jobTypeCount st.job = 0 then 1 else st.job.QueueDepth) ∧
    (finishJob st).BatchSize = (if st.job.Rate.isPos = true ∧ st.job.BatchSize = 0
      then 1 else st.job.BatchSize) ∧
    jobTypeCount (finishJob st) = (if jobTypeCount st.job = 0 then 1
      else jobTypeCount st.job) := by
  by_cases hc0 : jobTypeCount st.job = 0
  · obtain ⟨hdq, hdl, hdr⟩ := jobTypeCount_eq_zero hc0
    simp only [finishJob, if_pos hc0]
    cases hargs : st.queryArgsFile <;>
      simp [hargs, hdl, hdq, hdr, jobTypeCount, hc0]
  · simp only [finishJob, if_neg hc0]
    by_cases hb : st.job.Rate.isPos = true ∧ st.job.BatchSize = 0
    · cases hargs : st.queryArgsFile <;> simp [hargs, hb, jobTypeCount, hc0]
    · cases hargs : st.queryArgsFile <;> simp [hargs, hb, jobTypeCount, hc0]

theorem checksIni_ok_spec {st : JobParseState} {j : Job} (h : checksIni st = .ok j) :
    jobTypeCount st.job ≤ 1 ∧
    ¬(st.job.Rate.isZero = true ∧ 0 < st.job.BatchSize) ∧
    j = finishJob st := by
  simp only [checksIni] at h
  repeat' split at h
  all_goals try exact Except.noConfusion h
  injection h with hj
  exact ⟨Nat.not_lt.mp (by assumption), by assumption, hj.symm⟩

theorem checksJson_ok_spec {st : JobParseState} {j : Job} (h : checksJson st = .ok j) :
    jobTypeCount st.job ≤ 1 ∧
    ¬(st.job.Rate.isZero = true ∧ 0 < st.job.BatchSize) ∧
    j = finishJob st := by
  simp only [checksJson] at h
  repeat' split at h
  all_goals try exact Except.noConfusion h
  injection h with hj
  exact ⟨Nat.not_lt.mp (by assumption), by assumption, hj.symm⟩

theorem checks_ok_iff (st : JobParseState) (j : Job) :
    checksIni st = .ok j ↔ checksJson st = .ok j := by
  simp only [checksIni, checksJson]
  split_ifs <;> simp

/-! ## Elimination lemmas for the two job-section functions -/

theorem decodeJobSection_ok_elim {df : DatabaseFlavor} {fs : FS} {b n : String}
    {s : IniJobSection} {job : Job} (h : decodeJobSection df fs b n s = .ok job) :
    ∃ st, decodeJobFields df fs b n s = .ok st ∧ checksIni st = .ok job := by
  unfold decodeJobSection at h
  split at h
  · exact Except.noConfusion h
  · rename_i st hst
    exact ⟨st, hst, h⟩

theorem validateJobSection_ok_elim {df : DatabaseFlavor} {fs : FS} {b n : String}
    {o : JobOptions} {job : Job} (h : validateJobSection df fs b n o = .ok job) :
    ∃ st, validateJobFields df fs b n o = .ok st ∧ checksJson st = .ok job := by
  unfold validateJobSection at h
  split at h
  · exact Except.noConfusion h
  · rename_i st hst
    exact ⟨st, hst, h⟩

theorem strOpt_eq_none {v : String} : strOpt v = none ↔ v = "" := by
  unfold strOpt
  split <;> simp_all

theorem decodeJobFields_mode_count {df : DatabaseFlavor} {fs : FS} {b n : String}
    {s : IniJobSection} {st : JobParseState}
    (h : decodeJobFields df fs b n s = .ok st) :
    jobTypeCount st.job = iniModesSpecified s := by
  obtain ⟨-, -, -, hrate, -, -, hdepth, -, hlog⟩ := decodeJobFields_ok_spec h
  unfold jobTypeCount iniModesSpecified
  rw [hrate, hdepth, if_congr (not_congr hlog) rfl rfl]

theorem validateJobFields_mode_count {df : DatabaseFlavor} {fs : FS} {b n : String}
    {o : JobOptions} {st : JobParseState}
    (h : validateJobFields df fs b n o = .ok st) :
    jobTypeCount st.job = jsonModesSpecified o := by
  obtain ⟨-, -, -, hrate, -, -, hdepth, -, hlog, -⟩ := validateJobFields_ok_spec h
  unfold jobTypeCount jsonModesSpecified
  rw [hrate, hdepth, if_congr (not_congr (hlog.trans strOpt_eq_none)) rfl rfl]

/-- C1: for every validated Job exactly one of rate, queue depth, or a
query log is active (`differentJobTypes = 1` on the result); a job section
specifying more than one of rate, queue-depth/concurrency, or
query-log-file never validates; and a section specifying none of the three
gets `queueDepth = 1` — in both the INI decoder and the JSON validator. -/
theorem job_mode_exclusivity (df : DatabaseFlavor) (fs : FS) (b n : String)
    (s : IniJobSection) (o : JobOptions) :
    (∀ job, decodeJobSection df fs b n s = .ok job →
      jobTypeCount job = 1 ∧ (iniModesSpecified s = 0 → job.QueueDepth = 1)) ∧
    (1 < iniModesSpecified s → ∀ job, decodeJobSection df fs b n s ≠ .ok job) ∧
    (∀ job, validateJobSection df fs b n o = .ok job →
      jobTypeCount job = 1 ∧ (jsonModesSpecified o = 0 → job.QueueDepth = 1)) ∧
    (1 < jsonModesSpecified o → ∀ job, validateJobSection df fs b n o ≠ .ok job) := by
  refine ⟨?_, ?_, ?_, ?_⟩
  · intro job h
    obtain ⟨st, hf, hc⟩ := decodeJobSection_ok_elim h
    obtain ⟨hle, -, rfl⟩ := checksIni_ok_spec hc
    have hcnt := decodeJobFields_mode_count hf
    obtain ⟨-, -, -, -, -, -, -, hdq, -, hfc⟩ := finishJob_spec st
    constructor
    · rw [hfc]
      split
      · rfl
      · omega
    · intro hm
      rw [hdq, if_pos (by omega)]
  · intro hm job h
    obtain ⟨st, hf, hc⟩ := decodeJobSection_ok_elim h
    obtain ⟨hle, -, -⟩ := checksIni_ok_spec hc
    have hcnt := decodeJobFields_mode_count hf
    omega
  · intro job h
    obtain ⟨st, hf, hc⟩ := validateJobSection_ok_elim h
    obtain ⟨hle, -, rfl⟩ := checksJson_ok_spec hc
    have hcnt := validateJobFields_mode_count hf
    obtain ⟨-, -, -, -, -, -, -, hdq, -, hfc⟩ := finishJob_spec st
    constructor
    · rw [hfc]
      split
      · rfl
      · omega
    · intro hm
      rw [hdq, if_pos (by omega)]
  · intro hm job h
    obtain ⟨st, hf, hc⟩ := validateJobSection_ok_elim h
    obtain ⟨hle, -, -⟩ := checksJson_ok_spec hc
    have hcnt := validateJobFields_mode_count hf
    omega

theorem job_mode_exclusivity_witness :
    jobTypeCount { Name := "a", Queries := ["select 1"], QueueDepth := 1 : Job } = 1 ∧
    ({ Name := "a", Queries := ["select 1"], QueueDepth := 1 : Job }).QueueDepth = 1 :=
  And.intro
    (((job_mode_exclusivity testFlavor emptyFs "" "a" { queries := ["select 1"] }
        { Queries := ["select 1"] }).1
      { Name := "a", Queries := ["select 1"], QueueDepth := 1 } (by decide)).1)
    (((job_mode_exclusivity testFlavor emptyFs "" "a" { queries := ["select 1"] }
        { Queries := ["select 1"] }).1
      { Name := "a", Queries := ["select 1"], QueueDepth := 1 } (by decide)).2 (by decide))

theorem decodeJobSection_ne_ok {df : DatabaseFlavor} {fs : FS} {b n : String}
    {s : IniJobSection} (h : ∀ st, decodeJobFields df fs b n s ≠ .ok st) :
    ∀ job, decodeJobSection df fs b n s ≠ .ok job := by
  intro job hj
  obtain ⟨st, hst, -⟩ := decodeJobSection_ok_elim hj
  exact h st hst

theorem validateJobSection_ne_ok {df : DatabaseFlavor} {fs : FS} {b n : String}
    {o : JobOptions} (h : ∀ st, validateJobFields df fs b n o ≠ .ok st) :
    ∀ job, validateJobSection df fs b n o ≠ .ok job := by
  intro job hj
  obtain ⟨st, hst, -⟩ := validateJobSection_ok_elim hj
  exact h st hst

/-- Go float facts used by the amended C7. -/
theorem GoFloat.isZero_eq_false_of_isPos :
    ∀ {r : GoFloat}, r.isPos = true → r.isZero = false
  | .nan, _ => rfl
  | .num q, h => by
    simp only [GoFloat.isPos, decide_eq_true_eq] at h
    simp only [GoFloat.isZero, decide_eq_false_iff_not]
    exact ne_of_gt h

theorem GoFloat.ne_num_zero_of_isNeg {r : GoFloat} (h : r.isNeg = true) :
    r ≠ .num 0 := by
  intro heq
  subst heq
  simp [GoFloat.isNeg] at h

/-- C7 (amended): in both parsers a rate that compares less than zero is a
config error, giving `batch-size` with a rate that compares equal to zero
(or no rate at all) is a config error, and a rate comparing greater than
zero with the batch size left at zero defaults the batch size to 1; hence
every accepted job satisfies `¬(rate < 0)` and
`batchSize > 0 → ¬(rate == 0)` — in Go float comparison semantics, under
which a NaN rate (see the counterexample) passes every guard. -/
theorem rate_batch_size_rules (df : DatabaseFlavor) (fs : FS) (b n : String)
    (s : IniJobSection) (o : JobOptions) :
    (∀ job, decodeJobSection df fs b n s = .ok job →
      job.Rate.isNeg = false ∧ (0 < job.BatchSize → job.Rate.isZero = false) ∧
      (job.Rate.isPos = true → s.batchSize.getD 0 = 0 → job.BatchSize = 1)) ∧
    ((s.rate.getD (.num 0)).isZero = true → 0 < s.batchSize.getD 0 →
      ∀ job, decodeJobSection df fs b n s ≠ .ok job) ∧
    (∀ r, s.rate = some r → r.isNeg = true →
      ∀ job, decodeJobSection df fs b n s ≠ .ok job) ∧
    (∀ job, validateJobSection df fs b n o = .ok job →
      job.Rate.isNeg = false ∧ (0 < job.BatchSize → job.Rate.isZero = false) ∧
      (job.Rate.isPos = true → o.BatchSize = 0 → job.BatchSize = 1)) ∧
    (o.Rate.isZero = true → 0 < o.BatchSize →
      ∀ job, validateJobSection df fs b n o ≠ .ok job) ∧
    (o.Rate.isNeg = true → ∀ job, validateJobSection df fs b n o ≠ .ok job) := by
  refine ⟨?_, ?_, ?_, ?_, ?_, ?_⟩
  · intro job h
    obtain ⟨st, hf, hc⟩ := decodeJobSection_ok_elim h
    obtain ⟨-, hne, rfl⟩ := checksIni_ok_spec hc
    obtain ⟨-, -, -, hrate, hr0, hbatch, -, -, -⟩ := decodeJobFields_ok_spec hf
    obtain ⟨-, -, -, fRate, -, -, -, -, fBatch, -⟩ := finishJob_spec st
    refine ⟨?_, ?_, ?_⟩
    · rw [fRate]; exact hr0
    · rw [fBatch, fRate]
      intro hb
      by_cases hcnd : st.job.Rate.isPos = true ∧ st.job.BatchSize = 0
      · exact GoFloat.isZero_eq_false_of_isPos hcnd.1
      · rw [if_neg hcnd] at hb
        by_contra hz
        exact hne ⟨by simpa using hz, hb⟩
    · intro hjr hb0
      rw [fBatch, if_pos ⟨by rwa [fRate] at hjr, by rw [hbatch, hb0]⟩]
  · intro hr hb job h
    obtain ⟨st, hf, hc⟩ := decodeJobSection_ok_elim h
    obtain ⟨-, hne, -⟩ := checksIni_ok_spec hc
    obtain ⟨-, -, -, hrate, -, hbatch, -, -, -⟩ := decodeJobFields_ok_spec hf
    exact hne ⟨by rw [hrate]; exact hr, by rw [hbatch]; exact hb⟩
  · intro r hsr hneg
    refine decodeJobSection_ne_ok (fun st hst => ?_)
    refine decodeJobFields_ne_ok_of_rate_err (m := "invalid negative value for rate")
      ?_ st hst
    rw [hsr]
    simp [iniParseRate, hneg]
  · intro job h
    obtain ⟨st, hf, hc⟩ := validateJobSection_ok_elim h
    obtain ⟨-, hne, rfl⟩ := checksJson_ok_spec hc
    obtain ⟨-, -, -, hrate, hr0, hbatch, -, -, -, -⟩ := validateJobFields_ok_spec hf
    obtain ⟨-, -, -, fRate, -, -, -, -, fBatch, -⟩ := finishJob_spec st
    refine ⟨?_, ?_, ?_⟩
    · rw [fRate]; exact hr0
    · rw [fBatch, fRate]
      intro hb
      by_cases hcnd : st.job.Rate.isPos = true ∧ st.job.BatchSize = 0
      · exact GoFloat.isZero_eq_false_of_isPos hcnd.1
      · rw [if_neg hcnd] at hb
        by_contra hz
        exact hne ⟨by simpa using hz, hb⟩
    · intro hjr hb0
      rw [fBatch, if_pos ⟨by rwa [fRate] at hjr, by rw [hbatch, hb0]⟩]
  · intro hr hb job h
    obtain ⟨st, hf, hc⟩ := validateJobSection_ok_elim h
    obtain ⟨-, hne, -⟩ := checksJson_ok_spec hc
    obtain ⟨-, -, -, hrate, -, hbatch, -, -, -, -⟩ := validateJobFields_ok_spec hf
    exact hne ⟨by rw [hrate]; exact hr, by rw [hbatch]; exact hb⟩
  · intro hneg
    refine validateJobSection_ne_ok (fun st hst => ?_)
    refine validateJobFields_ne_ok_of_rate_err (m := "invalid negative value for rate")
      ?_ st hst
    unfold jsonParseRate
    rw [if_pos (GoFloat.ne_num_zero_of_isNeg hneg), if_pos hneg]

theorem rate_batch_size_rules_witness :
    ({ Name := "a", Queries := ["select 1"], Rate := .num 2,
       BatchSize := 1 : Job }).Rate.isNeg = false ∧
    ({ Name := "a", Queries := ["select 1"], Rate := .num 2,
       BatchSize := 1 : Job }).BatchSize = 1 :=
  And.intro
    (((rate_batch_size_rules testFlavor emptyFs "" "a"
        { queries := ["select 1"], rate := some (.num 2) }
        { Queries := ["select 1"], Rate := .num 2 }).1
      { Name := "a", Queries := ["select 1"], Rate := .num 2, BatchSize := 1 }
      (by decide)).1)
    (((rate_batch_size_rules testFlavor emptyFs "" "a"
        { queries := ["select 1"], rate := some (.num 2) }
        { Queries := ["select 1"], Rate := .num 2 }).1
      { Name := "a", Queries := ["select 1"], Rate := .num 2, BatchSize := 1 }
      (by decide)).2.2 (by decide) (by decide))

/-- C7 (counterexample): `strconv.ParseFloat` accepts `"NaN"`, and a NaN
rate passes both rate guards (`NaN < 0` and `NaN == 0` are false in Go),
so the INI decoder accepts `rate = NaN` together with `batch-size = 5`;
the accepted job violates the claimed invariants `rate ≥ 0` and
`batchSize > 0 → rate > 0`, since NaN compares neither `≥ 0` nor `> 0`. -/
theorem nan_rate_accepted_cex :
    (decodeJobSection testFlavor emptyFs "" "a"
      { queries := ["select 1"], rate := some .nan, batchSize := some 5 } =
      .ok { Name := "a", Queries := ["select 1"], Rate := .nan, BatchSize := 5,
            QueueDepth := 1 }) ∧
    GoFloat.nan.isPos = false ∧
    GoFloat.nan.isNeg = false ∧
    GoFloat.nan.isZero = false ∧
    0 < 5 := by
  decide

/-- C9: in the JSON validator a job setting both `queueDepth` and
`concurrency` to nonzero values is not rejected for that reason — the
`QueueDepth` field of the options is simply ignored (the `Concurrency`
assignment unconditionally overwrites it), and every accepted job's
`QueueDepth` equals the `concurrency` value whenever `concurrency` is
set. -/
theorem concurrency_overrides_queue_depth (df : DatabaseFlavor) (fs : FS)
    (b n : String) (o : JobOptions) (hc : o.Concurrency ≠ 0) :
    (∀ q, validateJobSection df fs b n { o with QueueDepth := q } =
      validateJobSection df fs b n o) ∧
    (∀ job, validateJobSection df fs b n o = .ok job →
      job.QueueDepth = o.Concurrency) := by
  constructor
  · intro q
    have hf : validateJobFields df fs b n { o with QueueDepth := q } =
        validateJobFields df fs b n o := by
      unfold validateJobFields
      simp [hc]
    unfold validateJobSection
    rw [hf]
  · intro job h
    obtain ⟨st, hfst, hcj⟩ := validateJobSection_ok_elim h
    obtain ⟨hle, -, rfl⟩ := checksJson_ok_spec hcj
    obtain ⟨-, -, -, -, -, -, hdepth, -, -, -⟩ := validateJobFields_ok_spec hfst
    obtain ⟨-, -, -, -, -, -, -, hdq, -, -⟩ := finishJob_spec st
    have hpos : 0 < st.job.QueueDepth := by
      rw [hdepth, if_pos hc]
      exact Nat.pos_of_ne_zero hc
    have hcnt : jobTypeCount st.job ≠ 0 := by
      unfold jobTypeCount
      rw [if_pos hpos]
      omega
    rw [hdq, if_neg hcnt, hdepth, if_pos hc]

theorem concurrency_overrides_queue_depth_witness :
    ({ Name := "a", Queries := ["select 1"], QueueDepth := 3 : Job }).QueueDepth =
      ({ Queries := ["select 1"], QueueDepth := 2, Concurrency := 3 : JobOptions }).Concurrency :=
  (concurrency_overrides_queue_depth testFlavor emptyFs "" "a"
      { Queries := ["select 1"], QueueDepth := 2, Concurrency := 3 } (by decide)).2
    { Name := "a", Queries := ["select 1"], QueueDepth := 3 } (by decide)

/-- C10: both parsers measure the query-args delimiter in bytes: any
delimiter whose UTF-8 encoding is not exactly one byte (such as `€`) is
rejected with `"Must provide exactly one character for delimiter"`, and
the INI form additionally requires the raw value to be a quotable string
literal (`strconv.Unquote` must succeed). -/
theorem delim_length_in_bytes (df : DatabaseFlavor) (fs : FS) (b n : String)
    (s : IniJobSection) (o : JobOptions) (v : String) :
    (∀ t, s.queryArgsDelim = some v → goUnquote v = some t → t.length ≠ 1 →
      iniParseDelim (some v) = .error "Must provide exactly one character for delimiter" ∧
      ∀ job, decodeJobSection df fs b n s ≠ .ok job) ∧
    (s.queryArgsDelim = some v → goUnquote v = none →
      ∀ job, decodeJobSection df fs b n s ≠ .ok job) ∧
    (o.QueryArgsDelim ≠ "" → o.QueryArgsDelim.utf8ByteSize ≠ 1 →
      jsonParseDelim o.QueryArgsDelim =
        .error "Must provide exactly one character for delimiter" ∧
      ∀ job, validateJobSection df fs b n o ≠ .ok job) := by
  refine ⟨?_, ?_, ?_⟩
  · intro t hs hu hsz
    have hderr : iniParseDelim (some v) =
        .error "Must provide exactly one character for delimiter" := by
      simp only [iniParseDelim, hu]
      rw [if_pos hsz]
    refine ⟨hderr, decodeJobSection_ne_ok (fun st hst => ?_)⟩
    refine decodeJobFields_ne_ok_of_delim_err
      (m := "Must provide exactly one character for delimiter") ?_ st hst
    rw [hs]
    exact hderr
  · intro hs hu
    have hderr : iniParseDelim (some v) = .error "invalid syntax" := by
      simp only [iniParseDelim, hu]
    refine decodeJobSection_ne_ok (fun st hst => ?_)
    refine decodeJobFields_ne_ok_of_delim_err (m := "invalid syntax") ?_ st hst
    rw [hs]
    exact hderr
  · intro hne hsz
    have hderr : jsonParseDelim o.QueryArgsDelim =
        .error "Must provide exactly one character for delimiter" := by
      unfold jsonParseDelim
      rw [if_neg hne, if_pos hsz]
    exact ⟨hderr, validateJobSection_ne_ok (fun st hst =>
      validateJobFields_ne_ok_of_delim_err
        (m := "Must provide exactly one character for delimiter") hderr st hst)⟩

theorem delim_length_in_bytes_witness :
    ((iniParseDelim (some "\"€\"") =
      .error "Must provide exactly one character for delimiter") ∧
    (jsonParseDelim "€" =
      .error "Must provide exactly one character for delimiter")) ∧
    goUnquote (String.mk ['\'', 'x', '\'']) = some [120] ∧
    iniParseDelim (some (String.mk ['\'', 'x', '\''])) = .ok (some 'x') :=
  ⟨And.intro
    (((delim_length_in_bytes testFlavor argsFs "" "a"
        { queries := ["select 1"], queryArgsFile := some "/args.csv",
          queryArgsDelim := some "\"€\"" }
        { Queries := ["select 1"], QueryArgsFile := "/args.csv",
          QueryArgsDelim := "€" } "\"€\"").1 [226, 130, 172] rfl (by decide)
        (by decide)).1)
    (((delim_length_in_bytes testFlavor argsFs "" "a"
        { queries := ["select 1"], queryArgsFile := some "/args.csv",
          queryArgsDelim := some "\"€\"" }
        { Queries := ["select 1"], QueryArgsFile := "/args.csv",
          QueryArgsDelim := "€" } "\"€\"").2.2 (by decide) (by decide)).1),
   by decide, by decide⟩

/-! ## INI / JSON job-section equivalence -/

theorem rate_parse_agree (ro : Option GoFloat) :
    iniParseRate ro = jsonParseRate (ro.getD (.num 0)) := by
  cases ro with
  | none => simp [iniParseRate, jsonParseRate]
  | some r =>
    by_cases h0 : r = .num 0
    · subst h0
      simp [iniParseRate, jsonParseRate, GoFloat.isNeg]
    · by_cases hn : r.isNeg = true <;> simp [iniParseRate, jsonParseRate, h0, hn]

theorem strOpt_getD {so : Option String} (h : so ≠ some "") :
    strOpt (so.getD "") = so := by
  cases so with
  | none => simp [strOpt]
  | some p =>
    have hp : ¬p = "" := fun hh => h (by rw [hh])
    simp [strOpt, hp]

theorem fields_agree (df : DatabaseFlavor) (fs : FS) (b n : String) (s : IniJobSection)
    (hd : s.queryArgsDelim = none)
    (hm : s.multiQueryMode = none ∨ s.multiQueryMode = some "multi-connection")
    (ha : s.queryArgsFile ≠ some "")
    (hrf : s.queryResultsFile ≠ some "")
    (hl : s.queryLogFile ≠ some "")
    (hqc : s.queueDepth = none ∨ s.concurrency = none) :
    decodeJobFields df fs b n s = validateJobFields df fs b n (sectionToOptions s) := by
  have em : iniParseMulti s.multiQueryMode =
      .ok (s.multiQueryMode == some "multi-connection") := by
    rcases hm with h | h <;> rw [h] <;> rfl
  have e6 : (if s.concurrency.getD 0 ≠ 0 then s.concurrency.getD 0
      else s.queueDepth.getD 0) = s.concurrency.getD (s.queueDepth.getD 0) := by
    rcases hqc with h | h
    · cases s.concurrency with
      | none => simp
      | some c =>
        by_cases hc : c = 0 <;> simp [h, hc]
    · rw [h]
      simp
  unfold decodeJobFields validateJobFields
  simp only [sectionToOptions, em, hd, strOpt_getD ha, strOpt_getD hl, strOpt_getD hrf,
    ← rate_parse_agree, iniParseDelim, jsonParseDelim, Option.getD_none, e6,
    if_true, eq_self_iff_true]

/-- C2 (amended): a job specification expressible in both surface syntaxes
with the same field values — with no query-args delimiter (the one field
the two decoders treat differently), queue depth given through at most one
of the `queue-depth`/`concurrency` aliases, no empty-string file paths,
and a well-formed multi-query mode — is accepted or rejected by the INI
decoder and the JSON validator under the same conditions, and on
acceptance yields the same Job. -/
theorem ini_json_job_equiv (df : DatabaseFlavor) (fs : FS) (b n : String)
    (s : IniJobSection)
    (hd : s.queryArgsDelim = none)
    (hm : s.multiQueryMode = none ∨ s.multiQueryMode = some "multi-connection")
    (ha : s.queryArgsFile ≠ some "")
    (hrf : s.queryResultsFile ≠ some "")
    (hl : s.queryLogFile ≠ some "")
    (hqc : s.queueDepth = none ∨ s.concurrency = none)
    (j : Job) :
    decodeJobSection df fs b n s = .ok j ↔
      validateJobSection df fs b n (sectionToOptions s) = .ok j := by
  unfold decodeJobSection validateJobSection
  rw [fields_agree df fs b n s hd hm ha hrf hl hqc]
  cases hval : validateJobFields df fs b n (sectionToOptions s) with
  | error e => simp
  | ok st => simpa using checks_ok_iff st j

theorem ini_json_job_equiv_witness :
    decodeJobSection testFlavor argsFs "" "a"
        { queries := ["select 1"], queryArgsFile := some "/args.csv" } =
      .ok { Name := "a", Queries := ["select 1"], QueueDepth := 1,
            QueryArgs := some { source := "/args.csv", comma := ',' } } ↔
    validateJobSection testFlavor argsFs "" "a"
        (sectionToOptions { queries := ["select 1"], queryArgsFile := some "/args.csv" }) =
      .ok { Name := "a", Queries := ["select 1"], QueueDepth := 1,
            QueryArgs := some { source := "/args.csv", comma := ',' } } :=
  ini_json_job_equiv testFlavor argsFs "" "a"
    { queries := ["select 1"], queryArgsFile := some "/args.csv" }
    rfl (Or.inl rfl) (by decide) (by decide) (by decide) (Or.inl rfl)
    { Name := "a", Queries := ["select 1"], QueueDepth := 1,
      QueryArgs := some { source := "/args.csv", comma := ',' } }

/-- C2 (counterexample): the INI decoder and the JSON validator disagree
on the query-args delimiter field: for the same field value `","` the INI
decoder fails (`strconv.Unquote` rejects the unquoted value) while the
JSON validator accepts the job. -/
theorem ini_json_delim_divergence :
    isOkE (decodeJobSection testFlavor argsFs "" "a"
      { queries := ["select 1"], queryArgsFile := some "/args.csv",
        queryArgsDelim := some "," }) = false ∧
    isOkE (validateJobSection testFlavor argsFs "" "a"
      { Queries := ["select 1"], QueryArgsFile := "/args.csv",
        QueryArgsDelim := "," }) = true := by
  decide

/-! ## Config-level duration checks -/

theorem checkJobTimes_none_iff (d : Int) (js : List (String × Job)) :
    checkJobTimes d js = none ↔
      ∀ p ∈ js, ¬(0 < d ∧ d < p.2.Start) ∧
        ¬(0 < p.2.Stop ∧ 0 < d ∧ d < p.2.Stop) := by
  induction js with
  | nil => simp [checkJobTimes]
  | cons p rest ih =>
    obtain ⟨name, job⟩ := p
    unfold checkJobTimes
    split_ifs with h1 h2 <;> simp_all

theorem checkJobTimes_none_iff_of_pos {d : Int} (hd : 0 < d)
    (js : List (String × Job)) :
    checkJobTimes d js = none ↔ ∀ p ∈ js, p.2.Start ≤ d ∧ p.2.Stop ≤ d := by
  rw [checkJobTimes_none_iff]
  constructor
  · intro h p hp
    obtain ⟨h1, h2⟩ := h p hp
    omega
  · intro h p hp
    obtain ⟨h1, h2⟩ := h p hp
    omega

theorem checkJobTimes_ne_none {d : Int} {js : List (String × Job)} (hd : 0 < d)
    (h : checkJobTimes d js ≠ none) :
    ∃ p ∈ js, d < p.2.Start ∨ d < p.2.Stop := by
  by_contra hno
  apply h
  rw [checkJobTimes_none_iff_of_pos hd]
  push_neg at hno
  intro p hp
  exact hno p hp

theorem parseIniConfig_ok_times {df : DatabaseFlavor} {fs : FS} {b : String}
    {c : IniConfigInput} {cfg : Config} (h : parseIniConfig df fs b c = .ok cfg) :
    checkJobTimes cfg.Duration cfg.Jobs = none := by
  unfold parseIniConfig at h
  split at h
  · exact Except.noConfusion h
  split at h
  · exact Except.noConfusion h
  split at h
  · exact Except.noConfusion h
  dsimp only [] at h
  split at h
  · exact Except.noConfusion h
  rename_i heq
  injection h with h2
  subst h2
  exact heq

theorem parseJSONConfig_ok_times {df : DatabaseFlavor} {fs : FS} {b : String}
    {c : JSONConfigInput} {cfg : Config} (h : parseJSONConfig df fs b c = .ok cfg) :
    checkJobTimes cfg.Duration cfg.Jobs = none := by
  unfold parseJSONConfig at h
  split at h
  · exact Except.noConfusion h
  split at h
  · exact Except.noConfusion h
  split at h
  · exact Except.noConfusion h
  dsimp only [] at h
  split at h
  · exact Except.noConfusion h
  rename_i heq
  injection h with h2
  subst h2
  exact heq

/-- C4 (amended): neither parser validates `0 ≤ start` or `start ≤ stop`
(a job with negative start, or with stop before start, passes — see the
counterexample); the only cross-field bound enforced is against the test
duration: every accepted config with positive duration has
`start ≤ duration` and `stop ≤ duration` for every job. -/
theorem parse_only_duration_bounds (df : DatabaseFlavor) (fs : FS) (b : String)
    (ci : IniConfigInput) (cj : JSONConfigInput) :
    (∀ cfg, parseIniConfig df fs b ci = .ok cfg → 0 < cfg.Duration →
      ∀ p ∈ cfg.Jobs, p.2.Start ≤ cfg.Duration ∧ p.2.Stop ≤ cfg.Duration) ∧
    (∀ cfg, parseJSONConfig df fs b cj = .ok cfg → 0 < cfg.Duration →
      ∀ p ∈ cfg.Jobs, p.2.Start ≤ cfg.Duration ∧ p.2.Stop ≤ cfg.Duration) := by
  constructor
  · intro cfg h hd p hp
    exact (checkJobTimes_none_iff_of_pos hd cfg.Jobs).mp (parseIniConfig_ok_times h) p hp
  · intro cfg h hd p hp
    exact (checkJobTimes_none_iff_of_pos hd cfg.Jobs).mp (parseJSONConfig_ok_times h) p hp

theorem parse_only_duration_bounds_witness :
    (("a", { Name := "a", Start := 5, Stop := 7, Queries := ["select 1"],
             QueueDepth := 1 : Job }).2.Start ≤
      ({ Duration := 10, Setup := [], Teardown := [],
         Jobs := [("a", { Name := "a", Start := 5, Stop := 7,
                          Queries := ["select 1"], QueueDepth := 1 })],
         AcceptedErrors := [] : Config }).Duration) ∧
    (("a", { Name := "a", Start := 5, Stop := 7, Queries := ["select 1"],
             QueueDepth := 1 : Job }).2.Stop ≤
      ({ Duration := 10, Setup := [], Teardown := [],
         Jobs := [("a", { Name := "a", Start := 5, Stop := 7,
                          Queries := ["select 1"], QueueDepth := 1 })],
         AcceptedErrors := [] : Config }).Duration) :=
  (parse_only_duration_bounds testFlavor emptyFs ""
      { duration := some 10,
        jobSections := [("a", { queries := ["select 1"], start := some 5,
                                stop := some 7 })] } {}).1
    { Duration := 10, Setup := [], Teardown := [],
      Jobs := [("a", { Name := "a", Start := 5, Stop := 7,
                       Queries := ["select 1"], QueueDepth := 1 })],
      AcceptedErrors := [] }
    (by decide) (by decide)
    ("a", { Name := "a", Start := 5, Stop := 7, Queries := ["select 1"],
            QueueDepth := 1 }) (by decide)

/-- C4 (counterexample): the claim that a negative start or `stop < start`
is rejected is false — `parseIniConfig` accepts a job with `start = -5s`
(duration unset), and accepts a job with `stop` strictly before `start`
(duration `10ns`): no ConfigError is raised. -/
theorem negative_start_accepted_cex :
    (parseIniConfig testFlavor emptyFs ""
      { jobSections := [("a", { queries := ["select 1"],
                                start := some (-5000000000) })] } =
      .ok { Duration := 0, Setup := [], Teardown := [],
            Jobs := [("a", { Name := "a", Start := -5000000000,
                             Queries := ["select 1"], QueueDepth := 1 })],
            AcceptedErrors := [] }) ∧
    ((-5000000000 : Int) < 0) ∧
    (parseIniConfig testFlavor emptyFs ""
      { duration := some 10,
        jobSections := [("b", { queries := ["select 1"], start := some 3,
                                stop := some 1 })] } =
      .ok { Duration := 10, Setup := [], Teardown := [],
            Jobs := [("b", { Name := "b", Start := 3, Stop := 1,
                             Queries := ["select 1"], QueueDepth := 1 })],
            AcceptedErrors := [] }) ∧
    ((1 : Int) < 3) := by
  decide

/-- C6: with a positive duration (and the earlier parse stages
succeeding), both parsers fail exactly when some job has
`start > duration` or `stop > duration`; consequently every accepted
config with positive duration satisfies both bounds for every job. -/
theorem duration_bound_check_iff (df : DatabaseFlavor) (fs : FS) (b : String)
    (ci : IniConfigInput) (cj : JSONConfigInput)
    (setupI teardownI : List String) (jsI : List (String × Job))
    (setupJ teardownJ : List String) (jsJ : List (String × Job))
    (hsI : decodeSetupSection df fs b ci.setupSection = .ok setupI)
    (htI : decodeSetupSection df fs b ci.teardownSection = .ok teardownI)
    (hjI : decodeConfigJobs df fs b ci.jobSections = .ok jsI)
    (hdI : 0 < ci.duration.getD 0)
    (hsJ : decodeSetupSection df fs b cj.setup = .ok setupJ)
    (htJ : decodeSetupSection df fs b cj.teardown = .ok teardownJ)
    (hjJ : validateConfigJobs df fs b cj.jobs = .ok jsJ)
    (hdJ : 0 < cj.duration.getD 0) :
    (isOkE (parseIniConfig df fs b ci) = false ↔
      ∃ p ∈ jsI, ci.duration.getD 0 < p.2.Start ∨ ci.duration.getD 0 < p.2.Stop) ∧
    (isOkE (parseJSONConfig df fs b cj) = false ↔
      ∃ p ∈ jsJ, cj.duration.getD 0 < p.2.Start ∨ cj.duration.getD 0 < p.2.Stop) ∧
    (∀ cfg, parseIniConfig df fs b ci = .ok cfg → 0 < cfg.Duration →
      ∀ p ∈ cfg.Jobs, p.2.Start ≤ cfg.Duration ∧ p.2.Stop ≤ cfg.Duration) ∧
    (∀ cfg, parseJSONConfig df fs b cj = .ok cfg → 0 < cfg.Duration →
      ∀ p ∈ cfg.Jobs, p.2.Start ≤ cfg.Duration ∧ p.2.Stop ≤ cfg.Duration) := by
  refine ⟨?_, ?_, (parse_only_duration_bounds df fs b ci cj).1,
    (parse_only_duration_bounds df fs b ci cj).2⟩
  · simp only [parseIniConfig, hsI, htI, hjI]
    cases hck : checkJobTimes (ci.duration.getD 0) jsI with
    | none =>
      simp only [isOkE]
      constructor
      · intro hfalse
        exact absurd hfalse (by simp)
      · rintro ⟨p, hp, hor⟩
        have hall := (checkJobTimes_none_iff_of_pos hdI jsI).mp hck p hp
        rcases hor with h | h <;> omega
    | some e =>
      simp only [isOkE]
      exact ⟨fun _ => checkJobTimes_ne_none hdI (by simp [hck]), fun _ => trivial⟩
  · simp only [parseJSONConfig, hsJ, htJ, hjJ]
    cases hck : checkJobTimes (cj.duration.getD 0) jsJ with
    | none =>
      simp only [isOkE]
      constructor
      · intro hfalse
        exact absurd hfalse (by simp)
      · rintro ⟨p, hp, hor⟩
        have hall := (checkJobTimes_none_iff_of_pos hdJ jsJ).mp hck p hp
        rcases hor with h | h <;> omega
    | some e =>
      simp only [isOkE]
      exact ⟨fun _ => checkJobTimes_ne_none hdJ (by simp [hck]), fun _ => trivial⟩

theorem duration_bound_check_iff_witness :
    isOkE (parseIniConfig testFlavor emptyFs ""
      { duration := some 10,
        jobSections := [("a", { queries := ["select 1"], start := some 20 })] }) =
        false ↔
    ∃ p ∈ [("a", { Name := "a", Start := 20, Queries := ["select 1"],
                   QueueDepth := 1 : Job })],
      (10 : Int) < p.2.Start ∨ (10 : Int) < p.2.Stop :=
  (duration_bound_check_iff testFlavor emptyFs ""
    { duration := some 10,
      jobSections := [("a", { queries := ["select 1"], start := some 20 })] }
    { duration := some 10, jobs := [("a", { Queries := ["select 1"], Start := some 20 })] }
    [] [] [("a", { Name := "a", Start := 20, Queries := ["select 1"], QueueDepth := 1 })]
    [] [] [("a", { Name := "a", Start := 20, Queries := ["select 1"], QueueDepth := 1 })]
    (by decide) (by decide) (by decide) (by decide)
    (by decide) (by decide) (by decide) (by decide)).1

/-! ## The orchestrator claims -/

/-- C5: a failing setup query aborts the run fatally at that query: no job
driver is started, no statistics are emitted, and no teardown query is
executed. -/
theorem setup_error_aborts_run (db : Db) (cfg : Config) (q e : String)
    (hs : firstQueryError db cfg.Setup = some (q, e)) :
    (runTest db cfg).jobsRun = false ∧
    (runTest db cfg).statsEmitted = false ∧
    (runTest db cfg).teardownExecuted = [] ∧
    (runTest db cfg).outcome = .setupFatal q e := by
  unfold firstQueryError at hs
  rcases hpair : runQueriesFatal db cfg.Setup with ⟨sx, serr⟩
  rw [hpair] at hs
  simp only at hs
  subst hs
  unfold runTest
  rw [hpair]
  simp

theorem setup_error_aborts_run_witness :
    ((runTest (fun q => if q = "create bad" then some "boom" else none)
      { Setup := ["create bad"], Teardown := ["drop t"] }).jobsRun = false) ∧
    ((runTest (fun q => if q = "create bad" then some "boom" else none)
      { Setup := ["create bad"], Teardown := ["drop t"] }).statsEmitted = false) ∧
    ((runTest (fun q => if q = "create bad" then some "boom" else none)
      { Setup := ["create bad"], Teardown := ["drop t"] }).teardownExecuted = []) ∧
    ((runTest (fun q => if q = "create bad" then some "boom" else none)
      { Setup := ["create bad"], Teardown := ["drop t"] }).outcome =
      .setupFatal "create bad" "boom") :=
  setup_error_aborts_run (fun q => if q = "create bad" then some "boom" else none)
    { Setup := ["create bad"], Teardown := ["drop t"] } "create bad" "boom" (by decide)

/-- C3 (amended): statistics are emitted before teardown runs, so they are
always emitted even when a teardown query fails; but a teardown error is
fatal, not merely reported: `runTest` aborts via `log.Fatalf` at the first
failing teardown query, and the teardown queries after it never run. -/
theorem teardown_error_aborts (db : Db) (cfg : Config) (q e : String)
    (hs : firstQueryError db cfg.Setup = none)
    (ht : firstQueryError db cfg.Teardown = some (q, e)) :
    (runTest db cfg).jobsRun = true ∧
    (runTest db cfg).statsEmitted = true ∧
    (runTest db cfg).teardownExecuted = (runQueriesFatal db cfg.Teardown).1 ∧
    (runTest db cfg).outcome = .teardownFatal q e := by
  unfold firstQueryError at hs ht
  rcases hpair : runQueriesFatal db cfg.Setup with ⟨sx, serr⟩
  rw [hpair] at hs
  simp only at hs
  subst hs
  rcases hpair2 : runQueriesFatal db cfg.Teardown with ⟨tx, terr⟩
  rw [hpair2] at ht
  simp only at ht
  subst ht
  unfold runTest
  rw [hpair, hpair2]
  simp

theorem teardown_error_aborts_witness :
    ((runTest (fun q => if q = "drop bad" then some "boom" else none)
      { Setup := ["create t"], Teardown := ["drop t1", "drop bad"] }).jobsRun = true) ∧
    ((runTest (fun q => if q = "drop bad" then some "boom" else none)
      { Setup := ["create t"], Teardown := ["drop t1", "drop bad"] }).statsEmitted =
      true) ∧
    ((runTest (fun q => if q = "drop bad" then some "boom" else none)
      { Setup := ["create t"], Teardown := ["drop t1", "drop bad"] }).teardownExecuted =
      (runQueriesFatal (fun q => if q = "drop bad" then some "boom" else none)
        ["drop t1", "drop bad"]).1) ∧
    ((runTest (fun q => if q = "drop bad" then some "boom" else none)
      { Setup := ["create t"], Teardown := ["drop t1", "drop bad"] }).outcome =
      .teardownFatal "drop bad" "boom") :=
  teardown_error_aborts (fun q => if q = "drop bad" then some "boom" else none)
    { Setup := ["create t"], Teardown := ["drop t1", "drop bad"] } "drop bad" "boom"
    (by decide) (by decide)

/-- C3 (counterexample): a teardown error does not let the run complete:
with a failing teardown query the outcome is a fatal abort
(`log.Fatalf`), not normal completion. -/
theorem teardown_error_fatal_cex :
    ((runTest (fun q => if q = "drop bad" then some "boom" else none)
      { Teardown := ["drop t1", "drop bad", "drop t3"] }).outcome =
      .teardownFatal "drop bad" "boom") ∧
    ((runTest (fun q => if q = "drop bad" then some "boom" else none)
      { Teardown := ["drop t1", "drop bad", "drop t3"] }).outcome ≠ .completed) ∧
    ((runTest (fun q => if q = "drop bad" then some "boom" else none)
      { Teardown := ["drop t1", "drop bad", "drop t3"] }).teardownExecuted =
      ["drop t1", "drop bad"]) := by
  decide
